import Mathlib

/-!
# Sharded database cluster: identifier scheme, configuration, routing

A shallow embedding of the Go package `database` (files `cluster.go`,
`config.go`, `connect.go`, `database.go`, `shard.go`) and theorems about it.

Conventions of the embedding:

* `uint16` and `uint64` values are natural numbers; a conversion or a shift that
  can lose bits carries an explicit `% 2 ^ w`.
* A Go `error` is `Option GoError`, `none` being `nil`. Error values carry the
  address of their allocation, and a function that may allocate one takes the
  address the allocation gets as the argument `alloc`.
* A Go `map` is an association list without repeated keys (`GoMap`); the claims
  never depend on an iteration order.
* Calls that leave the package (`url.Parse`, `pgxpool.New`, the transaction
  handle, the callback handed to `InTx` or `EveryShard`) are parameters.
-/

set_option autoImplicit false

namespace Database

/-! ## Go errors -/

/-- Error values. Each carries the address `addr` of its allocation, because Go
compares these values by pointer. `errorString` is what `errors.New` and
`fmt.Errorf` (without a wrapping verb) allocate; `foreign` is an error value
made outside the package (driver, callback), without `Is` or `Unwrap` methods;
`joinError` is the value `errors.Join` allocates. Two values that are alive
together and come from different allocations have different addresses. -/
inductive GoError where
  | errorString (addr : Nat) (msg : String)
  | foreign (addr : Nat)
  | joinError (addr : Nat) (errs : List GoError)

/-- Go's `error` interface value: `none` is `nil`. -/
abbrev error := Option GoError

/-- Go's `==` on two non-nil error values: same dynamic type and same pointer. -/
def GoError.same : GoError → GoError → Bool
  | .errorString a _, .errorString b _ => a == b
  | .foreign a, .foreign b => a == b
  | .joinError a _, .joinError b _ => a == b
  | _, _ => false

/-- Standard library `errors.Join`: drops the nil arguments, returns nil when
none is left, and otherwise a newly allocated error, at the address `alloc`,
that wraps the remaining ones in order. -/
def errorsJoin (alloc : Nat) (errs : List error) : error :=
  match errs.filterMap id with
  | [] => none
  | e :: es => some (.joinError alloc (e :: es))

mutual
/-- Inner loop of the standard library `errors.Is`: the error matches the
target when it equals it, or when it wraps several errors (`Unwrap() []error`)
and one of them matches. -/
def errorsIs.is (target : GoError) : GoError → Bool
  | .joinError addr errs =>
    GoError.same (.joinError addr errs) target || errorsIs.isAny target errs
  | e => GoError.same e target
/-- Some error of the list matches the target. -/
def errorsIs.isAny (target : GoError) : List GoError → Bool
  | [] => false
  | e :: es => errorsIs.is target e || errorsIs.isAny target es
end

/-- Standard library `errors.Is(err, target)`. -/
def errorsIs (err target : error) : Bool :=
  match err, target with
  | some e, some t => errorsIs.is t e
  | none, none => true
  | _, _ => false

/-! ## Go maps -/

/-- A Go map as an association list; `GoMap.store` keeps the keys distinct. -/
abbrev GoMap (κ ν : Type) := List (κ × ν)

/-- Read `m[k]` with the comma-ok form: `none` when the key is absent. -/
def GoMap.lookup {κ ν : Type} [DecidableEq κ] : GoMap κ ν → κ → Option ν
  | [], _ => none
  | (k', v) :: m, k => if k' = k then some v else GoMap.lookup m k

/-- Assign `m[k] = v`: overwrite the entry of `k`, or add one. -/
def GoMap.store {κ ν : Type} [DecidableEq κ] : GoMap κ ν → κ → ν → GoMap κ ν
  | [], k, v => [(k, v)]
  | (k', v') :: m, k, v => if k' = k then (k, v) :: m else (k', v') :: GoMap.store m k v

/-! ## database.go -/

/-- The `database` struct: the connection pool handle (`sql` and `sqlx` are
wrappers built from the same pool). -/
structure database where
  pool : Nat
  deriving DecidableEq, Repr

/-- Sentinel `errTxStart`, allocated once when the package is loaded. -/
def errTxStart : GoError := .errorString 1 "start transaction"

/-- Sentinel `errTxRollback`, allocated once when the package is loaded. -/
def errTxRollback : GoError := .errorString 2 "rollback transaction"

/-- Sentinel `errTxCommit`, allocated once when the package is loaded. -/
def errTxCommit : GoError := .errorString 3 "commit transaction"

/-- What the calls `InTx` makes return: `BeginTxx`, the callback `f`,
`tx.Rollback` and `tx.Commit`. -/
structure TxOutcomes where
  BeginTxx : error
  f : error
  Rollback : error
  Commit : error

/-- The calls `InTx` can make, for its trace. -/
inductive TxCall where
  | BeginTxx
  | f
  | Rollback
  | Commit
  deriving DecidableEq, Repr

/-- Method `(*database).InTx`: the calls made, in order, and the returned error.
`alloc` is the address at which `errors.Join` allocates, should it be called. -/
def database.InTx (alloc : Nat) (o : TxOutcomes) : List TxCall × error :=
  match o.BeginTxx with
  | some err => ([.BeginTxx], errorsJoin alloc [some err, some errTxStart])
  | none =>
    match o.f with
    | some err =>
      match o.Rollback with
      | some err1 =>
        ([.BeginTxx, .f, .Rollback], errorsJoin alloc [some err1, some errTxRollback])
      | none => ([.BeginTxx, .f, .Rollback], some err)
    | none =>
      match o.Commit with
      | some err => ([.BeginTxx, .f, .Commit], errorsJoin alloc [some err, some errTxCommit])
      | none => ([.BeginTxx, .f, .Commit], none)

/-! ## connect.go -/

/-- Function `connect`: opens the pool for the DSN; `pgxpoolNew` is `pgxpool.New`. -/
def connect (pgxpoolNew : String → Except GoError Nat) (dsn : String) :
    Except GoError database :=
  match pgxpoolNew dsn with
  | .error err => .error err
  | .ok pool => .ok { pool := pool }

/-! ## config.go -/

/-- The `ShardConfig` struct; `ShardID` is a `uint16`. -/
structure ShardConfig where
  ShardID : Nat
  DSN : String
  Writable : Bool
  deriving DecidableEq, Repr

/-- The `ClusterConfig` struct. -/
structure ClusterConfig where
  ClusterName : String
  Shards : List ShardConfig
  Tables : List String
  deriving DecidableEq, Repr

/-- Method `ShardConfig.validate`; `urlParse` is the error result of `url.Parse`,
and `alloc` the address at which the error it returns, if any, is allocated. -/
def ShardConfig.validate (urlParse : String → error) (alloc : Nat) (sc : ShardConfig) :
    error :=
  if sc.ShardID = 0 then
    some (.errorString alloc "shard_id cannot be zero")
  else
    match urlParse sc.DSN with
    | some _ => some (.errorString alloc ("invalid dsn: " ++ sc.DSN))
    | none => none

/-- The `for _, s := range cc.Shards` loop of `ClusterConfig.validate`, with the
map `dup` and the flag `writable` as loop state: the early-return error, or the
final value of `writable`. -/
def ClusterConfig.validate.loop (urlParse : String → error) (alloc : Nat) :
    List ShardConfig → GoMap Nat Unit → Bool → Except GoError Bool
  | [], _, writable => .ok writable
  | s :: rest, dup, writable =>
    match s.validate urlParse alloc with
    | some err => .error err
    | none =>
      match GoMap.lookup dup s.ShardID with
      | some _ => .error (.errorString alloc ("duplicate shard_id: " ++ toString s.ShardID))
      | none =>
        ClusterConfig.validate.loop urlParse alloc rest (GoMap.store dup s.ShardID ())
          (if s.Writable then true else writable)

/-- Method `ClusterConfig.validate`; `alloc` is the address at which the error it
returns, if any, is allocated. -/
def ClusterConfig.validate (urlParse : String → error) (alloc : Nat) (cc : ClusterConfig) :
    error :=
  if cc.ClusterName = "" then
    some (.errorString alloc "cluster_name is required")
  else if cc.Shards.length = 0 then
    some (.errorString alloc "shards are required")
  else if cc.Tables.length = 0 then
    some (.errorString alloc "no sharded tables defined for cluster")
  else
    match ClusterConfig.validate.loop urlParse alloc cc.Shards [] false with
    | .error err => some err
    | .ok writable =>
      if !writable then
        some (.errorString alloc "there should be at least one writable shard")
      else
        none

/-! ## shard.go -/

/-- The `shard` struct. Two shards of one cluster differ in `id`, so equality
of the records is the pointer equality Go uses on `*shard`. -/
structure shard where
  id : Nat
  writable : Bool
  conn : database
  deriving DecidableEq, Repr

/-- Method `(*shard).ID`. -/
def shard.ID (s : shard) : Nat := s.id

/-- Method `(*shard).Writable`. -/
def shard.Writable (s : shard) : Bool := s.writable

/-- Function `newShard`. -/
def newShard (id : Nat) (writable : Bool) (conn : database) : shard :=
  { id := id, writable := writable, conn := conn }

/-- Constant `our_epoch` of the routine `next_id`. -/
def our_epoch : Nat := 1314220021721

/-- The routine `next_id` that `createGenerator` installs, for the shard id
substituted into the text: `now_millis` is the clock reading in milliseconds
and `nextval` the sequence value, the clock not preceding the epoch. The result
is a `bigint`, read as the 64-bit pattern of a `uint64` key. -/
def next_id (shard_id : Nat) (now_millis nextval : Nat) : Nat :=
  let seq_id := nextval % 1024
  let result := ((now_millis - our_epoch) <<< 23) % 2 ^ 64
  let result := result ||| (shard_id <<< 10)
  let result := result ||| seq_id
  result

/-- Method `(*shard).createGenerator`: the routine it installs, which is
`next_id` with `%shard_id%` replaced by the decimal text of `uint64(s.id)`. -/
def shard.createGenerator (s : shard) : Nat → Nat → Nat :=
  next_id (s.id % 2 ^ 64)

/-! ## cluster.go -/

/-- Modelled from the spec: the round-robin selector of the imported package
`roundrobin` (its `New` and `Next` are not part of the sources). The spec
describes it as a cyclic selection that advances through a fixed ordered set on
each call and wraps to the start after the last element, kept as a counter
taken modulo the number of items. -/
structure RoundRobin (α : Type) where
  items : List α
  next : Nat

/-- Modelled from the spec: `roundrobin.New`, which fails on an empty list of
items (construction of the cycle fails when the writable list is empty). -/
def RoundRobin.New {α : Type} (items : List α) : Except GoError (RoundRobin α) :=
  match items with
  | [] => .error (.foreign 0)
  | _ :: _ => .ok { items := items, next := 0 }

/-- Modelled from the spec: `Next` of the round-robin selector, returning the
item under the cursor and advancing the cursor by one step of the cycle. -/
def RoundRobin.Next {α : Type} (r : RoundRobin α) : Option α × RoundRobin α :=
  (r.items.get? (r.next % r.items.length), { r with next := r.next + 1 })

/-- The `cluster` struct. -/
structure cluster where
  name : String
  all : List shard
  writable : List shard
  next : RoundRobin shard
  byID : GoMap Nat shard
  tables : List String

/-- The `for _, sc := range cfg.Shards` loop of `newCluster`, with the fields
`all`, `writable` and `byID` of the cluster under construction as loop state. -/
def newCluster.loop (pgxpoolNew : String → Except GoError Nat) :
    List ShardConfig → List shard → List shard → GoMap Nat shard →
      Except GoError (List shard × List shard × GoMap Nat shard)
  | [], all, writable, byID => .ok (all, writable, byID)
  | sc :: rest, all, writable, byID =>
    match connect pgxpoolNew sc.DSN with
    | .error err => .error err
    | .ok conn =>
      let s := newShard sc.ShardID sc.Writable conn
      newCluster.loop pgxpoolNew rest (all ++ [s])
        (if sc.Writable then writable ++ [s] else writable)
        (GoMap.store byID s.ID s)

/-- Function `newCluster`; `alloc` is the address at which the error of
`validate`, if any, is allocated. -/
def newCluster (urlParse : String → error) (pgxpoolNew : String → Except GoError Nat)
    (alloc : Nat) (cfg : ClusterConfig) : Except GoError cluster :=
  match cfg.validate urlParse alloc with
  | some err => .error err
  | none =>
    match newCluster.loop pgxpoolNew cfg.Shards [] [] [] with
    | .error err => .error err
    | .ok (all, writable, byID) =>
      match RoundRobin.New writable with
      | .error err => .error err
      | .ok next =>
        .ok { name := cfg.ClusterName, tables := cfg.Tables, all := all,
              writable := writable, byID := byID, next := next }

/-- Method `(*cluster).AllShards`. -/
def cluster.AllShards (c : cluster) : List shard := c.all

/-- The `for _, s := range c.all` loop of `EveryShard`: the shards `fn` was
called on, in call order, and the returned error. -/
def cluster.EveryShard.loop (fn : shard → error) : List shard → List shard × error
  | [] => ([], none)
  | s :: rest =>
    match fn s with
    | some err => ([s], some err)
    | none =>
      let r := cluster.EveryShard.loop fn rest
      (s :: r.1, r.2)

/-- Method `(*cluster).EveryShard`, with the trace of the calls of `fn`. -/
def cluster.EveryShard (c : cluster) (fn : shard → error) : List shard × error :=
  cluster.EveryShard.loop fn c.all

/-- Method `(*cluster).ShardByID`; `none` is the nil result. -/
def cluster.ShardByID (c : cluster) (id : Nat) : Option shard :=
  match GoMap.lookup c.byID id with
  | none => none
  | some s => some s

/-- Go's `<<` on `uint64` operands. -/
def shl64 (x k : Nat) : Nat := (x <<< k) % 2 ^ 64

/-- Function `extractShardID`. -/
def extractShardID (id : Nat) : Nat :=
  let shardID := id >>> 10
  let shardID := shardID &&& ((1 <<< 10) % 2 ^ 64 - 1)
  shardID % 2 ^ 16

/-- Method `(*cluster).ShardByKey`. -/
def cluster.ShardByKey (c : cluster) (key : Nat) : Option shard :=
  c.ShardByID (extractShardID key)

/-- The `for _, key := range keys` loop of `ShardsByKeys`, with the map
`result` as loop state. Reading a missing `result[s]` gives the nil slice. -/
def cluster.ShardsByKeys.loop (c : cluster) :
    List Nat → GoMap shard (List Nat) → GoMap shard (List Nat)
  | [], result => result
  | key :: keys, result =>
    match c.ShardByKey key with
    | none => cluster.ShardsByKeys.loop c keys result
    | some s =>
      cluster.ShardsByKeys.loop c keys
        (GoMap.store result s ((GoMap.lookup result s).getD [] ++ [key]))

/-- Method `(*cluster).ShardsByKeys`. -/
def cluster.ShardsByKeys (c : cluster) (keys : List Nat) : GoMap shard (List Nat) :=
  cluster.ShardsByKeys.loop c keys []

/-- Method `(*cluster).NextShard`: the shard returned and the cluster with the
advanced cursor. -/
def cluster.NextShard (c : cluster) : Option shard × cluster :=
  let r := c.next.Next
  (r.1, { c with next := r.2 })

/-- The shard that call number `k` of `NextShard` returns, counting from 0, when
the calls are made one after the other on the cluster `c`. -/
def cluster.NextShardCall : cluster → Nat → Option shard
  | c, 0 => c.NextShard.1
  | c, k + 1 => cluster.NextShardCall c.NextShard.2 k

/-! ## Auxiliary definitions -/

/-- The map `byID` after the assignments `byID[s.ID()] = s` for the shards of a
list, in order. -/
def byIDAfter (news : List shard) (byID : GoMap Nat shard) : GoMap Nat shard :=
  news.foldl (fun m s => GoMap.store m s.ID s) byID

/-! ## Examples -/

/-- A `url.Parse` that accepts every text. -/
def parseAny : String → error := fun _ => none

/-- A `pgxpool.New` that opens a pool for every DSN, numbered by the length of
the DSN text. -/
def openAny : String → Except GoError Nat := fun dsn => .ok dsn.length

/-- The topology of the end-to-end example: shard 1 writable, shard 2 not. -/
def exampleConfig : ClusterConfig :=
  { ClusterName := "main",
    Shards := [{ ShardID := 1, DSN := "a", Writable := true },
               { ShardID := 2, DSN := "bb", Writable := false }],
    Tables := ["users"] }

/-- The cluster `newCluster` builds from `exampleConfig`. -/
def exampleCluster : cluster :=
  { name := "main",
    all := [{ id := 1, writable := true, conn := { pool := 1 } },
            { id := 2, writable := false, conn := { pool := 2 } }],
    writable := [{ id := 1, writable := true, conn := { pool := 1 } }],
    next := { items := [{ id := 1, writable := true, conn := { pool := 1 } }], next := 0 },
    byID := [(1, { id := 1, writable := true, conn := { pool := 1 } }),
             (2, { id := 2, writable := false, conn := { pool := 2 } })],
    tables := ["users"] }

/-- Outcomes of a transaction whose callback fails with `foreign 101` and whose
rollback then fails with `foreign 102`. -/
def failingTx : TxOutcomes :=
  { BeginTxx := none, f := some (.foreign 101), Rollback := some (.foreign 102),
    Commit := none }

/-- A callback for `EveryShard` that fails on the shard with the id 2. -/
def failOnTwo : shard → error :=
  fun s => if s.id = 2 then some (.foreign 102) else none

/-- A topology with a shard id above 1023, which validation accepts. -/
def wideConfig : ClusterConfig :=
  { ClusterName := "main",
    Shards := [{ ShardID := 1, DSN := "a", Writable := true },
               { ShardID := 1025, DSN := "bb", Writable := true }],
    Tables := ["users"] }

/-- The cluster `newCluster` builds from `wideConfig`. -/
def wideCluster : cluster :=
  { name := "main",
    all := [{ id := 1, writable := true, conn := { pool := 1 } },
            { id := 1025, writable := true, conn := { pool := 2 } }],
    writable := [{ id := 1, writable := true, conn := { pool := 1 } },
                 { id := 1025, writable := true, conn := { pool := 2 } }],
    next := { items := [{ id := 1, writable := true, conn := { pool := 1 } },
                        { id := 1025, writable := true, conn := { pool := 2 } }], next := 0 },
    byID := [(1, { id := 1, writable := true, conn := { pool := 1 } }),
             (1025, { id := 1025, writable := true, conn := { pool := 2 } })],
    tables := ["users"] }


/-! ## Identifier scheme -/

/-- `extractShardID` reads the ten bits 10..19 of the key. -/
theorem extractShardID_eq_div_mod (id : Nat) : extractShardID id = id / 2 ^ 10 % 2 ^ 10 := by
  unfold extractShardID
  simp only []
  have h : ((1 <<< 10) % 2 ^ 64 - 1) = 2 ^ 10 - 1 := by decide
  rw [h, Nat.and_pow_two_sub_one_eq_mod, Nat.shiftRight_eq_div_pow]
  exact Nat.mod_eq_of_lt (lt_of_lt_of_le (Nat.mod_lt _ (by norm_num)) (by norm_num))

/-- `extractShardID` never returns more than 1023. -/
theorem extractShardID_lt (id : Nat) : extractShardID id < 1024 := by
  rw [extractShardID_eq_div_mod]
  exact Nat.mod_lt _ (by norm_num)

/-- The shard field of an identifier made by `next_id` holds the low ten bits
of the shard id the routine was installed with. -/
theorem extractShardID_next_id (shard_id now_millis nextval : Nat) :
    extractShardID (next_id shard_id now_millis nextval) = shard_id % 2 ^ 10 := by
  rw [extractShardID_eq_div_mod]
  unfold next_id
  simp only []
  apply Nat.eq_of_testBit_eq
  intro i
  rw [Nat.testBit_mod_two_pow, Nat.testBit_mod_two_pow, ← Nat.shiftRight_eq_div_pow]
  simp only [Nat.testBit_shiftRight, Nat.testBit_or, Nat.testBit_mod_two_pow,
    Nat.testBit_shiftLeft]
  by_cases hi : i < 10
  · have hq : (nextval % 1024).testBit (10 + i) = false :=
      Nat.testBit_lt_two_pow (lt_of_lt_of_le (Nat.mod_lt _ (by norm_num))
        (le_trans (by norm_num) (Nat.pow_le_pow_right (by norm_num) (Nat.le_add_right 10 i))))
    have h2 : ¬ (10 + i ≥ 23) := by omega
    simp [hi, hq, h2]
  · simp [hi]

/-- CLAIM C1. Round-trip shard addressing: for a shard index `s ≤ 1023`, a
timestamp `t < 2^41` and a sequence value `q < 2^10`, `extractShardID` applied to
`(t << 23) | (s << 10) | q`, computed on `uint64`, returns `s`; no bit is lost in
building the identifier. -/
theorem C1_extractShardID_roundtrip (s t q : Nat) (hs : s ≤ 1023) (ht : t < 2 ^ 41)
    (hq : q < 2 ^ 10) :
    extractShardID (shl64 t 23 ||| shl64 s 10 ||| q) = s ∧
      shl64 t 23 ||| shl64 s 10 ||| q = t * 2 ^ 23 + s * 2 ^ 10 + q := by
  have h1 : shl64 t 23 = t <<< 23 := by
    unfold shl64
    apply Nat.mod_eq_of_lt
    rw [Nat.shiftLeft_eq]
    calc t * 2 ^ 23 < 2 ^ 41 * 2 ^ 23 := Nat.mul_lt_mul_of_pos_right ht (by norm_num)
      _ = 2 ^ 64 := by norm_num
  have h2 : shl64 s 10 = s <<< 10 := by
    unfold shl64
    apply Nat.mod_eq_of_lt
    rw [Nat.shiftLeft_eq]
    omega
  have hs' : s < 2 ^ 10 := by omega
  constructor
  · rw [h1, h2, extractShardID_eq_div_mod]
    apply Nat.eq_of_testBit_eq
    intro i
    rw [Nat.testBit_mod_two_pow, ← Nat.shiftRight_eq_div_pow]
    simp only [Nat.testBit_shiftRight, Nat.testBit_or, Nat.testBit_shiftLeft]
    by_cases hi : i < 10
    · have hq' : q.testBit (10 + i) = false :=
        Nat.testBit_lt_two_pow (lt_of_lt_of_le hq
          (Nat.pow_le_pow_right (by norm_num) (Nat.le_add_right 10 i)))
      have h3 : ¬ (10 + i ≥ 23) := by omega
      simp [hi, hq', h3]
    · have hs'' : s.testBit i = false :=
        Nat.testBit_lt_two_pow (lt_of_lt_of_le hs'
          (Nat.pow_le_pow_right (by norm_num) (by omega)))
      simp [hi, hs'']
  · rw [h1, h2]
    simp only [Nat.shiftLeft_eq]
    have hlt : s * 2 ^ 10 < 2 ^ 23 := by omega
    have e1 : t * 2 ^ 23 ||| s * 2 ^ 10 = t * 2 ^ 23 + s * 2 ^ 10 := by
      rw [Nat.mul_comm t]
      exact (Nat.mul_add_lt_is_or hlt t).symm
    have e2 : t * 2 ^ 23 + s * 2 ^ 10 = 2 ^ 10 * (t * 2 ^ 13 + s) := by ring
    rw [e1, e2]
    exact (Nat.mul_add_lt_is_or hq _).symm

/-- Witness of C1 at shard 5, timestamp 123456789 and sequence value 77. -/
theorem C1_extractShardID_roundtrip_witness :
    extractShardID (shl64 123456789 23 ||| shl64 5 10 ||| 77) = 5 ∧
      shl64 123456789 23 ||| shl64 5 10 ||| 77 = 123456789 * 2 ^ 23 + 5 * 2 ^ 10 + 77 :=
  C1_extractShardID_roundtrip 5 123456789 77 (by decide) (by decide) (by decide)

/-- CLAIM C2, evaluated where it fails. Validation accepts the shard id 1025 and
`newCluster` builds the cluster; the identifier that the routine installed on
shard 1025 computes carries the shard field 1, so `ShardByKey` returns shard 1
and not the shard that produced the identifier. -/
theorem C2_routing_invariant_fails_above_1023 :
    ClusterConfig.validate parseAny 500 wideConfig = none ∧
      newCluster parseAny openAny 500 wideConfig = .ok wideCluster ∧
      shard.createGenerator { id := 1025, writable := true, conn := { pool := 2 } }
        (our_epoch + 5) 7 = 5 * 2 ^ 23 + 1025 * 2 ^ 10 + 7 ∧
      extractShardID (shard.createGenerator
        { id := 1025, writable := true, conn := { pool := 2 } } (our_epoch + 5) 7) = 1 ∧
      wideCluster.ShardByKey (shard.createGenerator
        { id := 1025, writable := true, conn := { pool := 2 } } (our_epoch + 5) 7) =
        some { id := 1, writable := true, conn := { pool := 1 } } := by
  refine ⟨by rfl, by rfl, by decide, by decide, by decide⟩

/-- CLAIM C9, evaluated where it fails. Validation returns no error for a
configuration whose only shard has the id 1024, nor for the id 65535. -/
theorem C9_validate_accepts_above_1023 :
    ClusterConfig.validate parseAny 500
        { ClusterName := "main", Shards := [{ ShardID := 1024, DSN := "a", Writable := true }],
          Tables := ["users"] } = none ∧
      ClusterConfig.validate parseAny 500
        { ClusterName := "main", Shards := [{ ShardID := 65535, DSN := "a", Writable := true }],
          Tables := ["users"] } = none ∧
      ShardConfig.validate parseAny 500 { ShardID := 1024, DSN := "a", Writable := true } = none := by
  refine ⟨by rfl, by rfl, by rfl⟩

/-! ## Transactions -/

/-- An error value equals itself. -/
theorem GoError.same_refl (e : GoError) : GoError.same e e = true := by
  cases e <;> simp [GoError.same]

/-- Every error matches itself under `errors.Is`. -/
theorem errorsIs_is_self (t : GoError) : errorsIs.is t t = true := by
  cases t <;> simp [errorsIs.is, GoError.same_refl]

/-- The error `errors.Join(a, b)` of two non-nil errors matches both. -/
theorem errorsIs_join_pair (alloc : Nat) (a b : GoError) :
    errorsJoin alloc [some a, some b] = some (.joinError alloc [a, b]) ∧
      errorsIs (errorsJoin alloc [some a, some b]) (some a) = true ∧
      errorsIs (errorsJoin alloc [some a, some b]) (some b) = true := by
  simp [errorsJoin, errorsIs, errorsIs.is, errorsIs.isAny, errorsIs_is_self]

/-- CLAIM C3, counterexample. The callback fails with `foreign 101` and the
rollback fails with `foreign 102`: the error `InTx` returns does not match the
callback's error under `errors.Is`. -/
theorem C3_original_error_not_surfaced :
    errorsIs (database.InTx 200 failingTx).2 (some (.foreign 101)) = false := by
  decide

/-- CLAIM C3, amended. When the transaction starts and the callback returns an
error `e`, `InTx` calls `Rollback` and never `Commit`; if the rollback succeeds it
returns `e`; if the rollback fails with `r` it returns `errors.Join(r,
errTxRollback)`, which matches `r` and the marker `errTxRollback` under
`errors.Is`. -/
theorem C3_InTx_callback_failure (alloc : Nat) (o : TxOutcomes) (e : GoError)
    (hbegin : o.BeginTxx = none) (hf : o.f = some e) :
    (database.InTx alloc o).1 = [.BeginTxx, .f, .Rollback] ∧
      TxCall.Commit ∉ (database.InTx alloc o).1 ∧
      (o.Rollback = none → (database.InTx alloc o).2 = some e) ∧
      (∀ r, o.Rollback = some r →
        (database.InTx alloc o).2 = some (.joinError alloc [r, errTxRollback]) ∧
        errorsIs (database.InTx alloc o).2 (some r) = true ∧
        errorsIs (database.InTx alloc o).2 (some errTxRollback) = true) := by
  unfold database.InTx
  rw [hbegin, hf]
  cases hr : o.Rollback with
  | none => simp
  | some r =>
    have h := errorsIs_join_pair alloc r errTxRollback
    have h2 := h.2
    rw [h.1] at h2
    simp [h.1, h2.1, h2.2]

/-- Witness of C3 (amended) with a failing callback and a failing rollback. -/
theorem C3_InTx_callback_failure_witness :
    (failingTx.BeginTxx = none ∧ failingTx.f = some (.foreign 101)) ∧
      (database.InTx 200 failingTx).1 = [.BeginTxx, .f, .Rollback] ∧
      TxCall.Commit ∉ (database.InTx 200 failingTx).1 ∧
      (failingTx.Rollback = none → (database.InTx 200 failingTx).2 = some (.foreign 101)) ∧
      (∀ r, failingTx.Rollback = some r →
        (database.InTx 200 failingTx).2 = some (.joinError 200 [r, errTxRollback]) ∧
        errorsIs (database.InTx 200 failingTx).2 (some r) = true ∧
        errorsIs (database.InTx 200 failingTx).2 (some errTxRollback) = true) :=
  ⟨⟨rfl, rfl⟩, C3_InTx_callback_failure 200 failingTx (.foreign 101) rfl rfl⟩

/-- The failed-rollback path, computed: with callback error `foreign 101` and
rollback error `foreign 102`, `InTx` returns the join of `foreign 102` and
`errTxRollback`, which matches both. -/
theorem example_InTx_failed_rollback :
    (database.InTx 200 failingTx).2 =
        some (.joinError 200 [.foreign 102, errTxRollback]) ∧
      errorsIs (database.InTx 200 failingTx).2 (some (.foreign 102)) = true ∧
      errorsIs (database.InTx 200 failingTx).2 (some errTxRollback) = true := by
  refine ⟨by rfl, by decide, by decide⟩

/-! ## Go maps: reading after writing -/

/-- Reading a map after `m[k] = v`. -/
theorem GoMap.lookup_store {κ ν : Type} [DecidableEq κ] (m : GoMap κ ν) (k k' : κ) (v : ν) :
    GoMap.lookup (GoMap.store m k v) k' = if k = k' then some v else GoMap.lookup m k' := by
  induction m with
  | nil => simp [GoMap.store, GoMap.lookup]
  | cons p m ih =>
    obtain ⟨a, b⟩ := p
    by_cases hak : a = k
    · subst hak
      by_cases hk : a = k' <;> simp [GoMap.store, GoMap.lookup, hk]
    · by_cases hk : k = k'
      · subst hk
        simp [GoMap.store, GoMap.lookup, hak, ih]
      · simp [GoMap.store, GoMap.lookup, hak, ih, hk]

/-! ## Configuration validation -/

/-- A shard configuration passes `validate` exactly when its id is not zero and
its DSN parses. -/
theorem shardConfig_validate_eq_none_iff (urlParse : String → error) (alloc : Nat) (sc : ShardConfig) :
    sc.validate urlParse alloc = none ↔ sc.ShardID ≠ 0 ∧ urlParse sc.DSN = none := by
  unfold ShardConfig.validate
  by_cases h0 : sc.ShardID = 0
  · simp [h0]
  · cases hp : urlParse sc.DSN <;> simp [h0]

/-- The shard loop of `ClusterConfig.validate` runs to its end exactly when every
shard passes, no id repeats or is already in `dup`, and then returns whether a
writable shard was seen. -/
theorem clusterConfig_validate_loop_ok_iff (urlParse : String → error) (alloc : Nat)
    (shards : List ShardConfig) (dup : GoMap Nat Unit) (w w' : Bool) :
    ClusterConfig.validate.loop urlParse alloc shards dup w = .ok w' ↔
      (∀ s ∈ shards, s.ShardID ≠ 0 ∧ urlParse s.DSN = none) ∧
      (shards.map ShardConfig.ShardID).Nodup ∧
      (∀ s ∈ shards, GoMap.lookup dup s.ShardID = none) ∧
      w' = (w || shards.any ShardConfig.Writable) := by
  induction shards generalizing dup w with
  | nil => simp [ClusterConfig.validate.loop, eq_comm]
  | cons s rest ih =>
    unfold ClusterConfig.validate.loop
    cases hv : s.validate urlParse alloc with
    | some err =>
      have hne : ¬ (s.ShardID ≠ 0 ∧ urlParse s.DSN = none) := by
        rw [← shardConfig_validate_eq_none_iff, hv]; simp
      simp only [List.mem_cons, forall_eq_or_imp]
      constructor
      · intro h; cases h
      · intro h; exact absurd h.1.1 hne
    | none =>
      have hs := (shardConfig_validate_eq_none_iff urlParse alloc s).1 hv
      cases hd : GoMap.lookup dup s.ShardID with
      | some u =>
        simp only [List.mem_cons, forall_eq_or_imp]
        constructor
        · intro h; cases h
        · intro h; rw [hd] at h; cases h.2.2.1.1
      | none =>
        simp only [ih, List.mem_cons, forall_eq_or_imp, List.map_cons, List.nodup_cons,
          List.any_cons, GoMap.lookup_store, List.mem_map, not_exists, not_and]
        constructor
        · rintro ⟨h1, h2, h3, h4⟩
          refine ⟨⟨hs, h1⟩, ⟨?_, h2⟩, ⟨hd, ?_⟩, ?_⟩
          · intro x hx hxe
            have := h3 x hx
            rw [if_pos hxe.symm] at this
            cases this
          · intro x hx
            have := h3 x hx
            by_cases hxe : s.ShardID = x.ShardID
            · rw [if_pos hxe] at this; cases this
            · rw [if_neg hxe] at this; exact this
          · rw [h4]; cases s.Writable <;> cases w <;> simp
        · rintro ⟨⟨_, h1⟩, ⟨hn, h2⟩, ⟨_, h3⟩, h4⟩
          refine ⟨h1, h2, ?_, ?_⟩
          · intro x hx
            have hxe : ¬ s.ShardID = x.ShardID := fun e => hn x hx e.symm
            rw [if_neg hxe]
            exact h3 x hx
          · rw [h4]; cases s.Writable <;> cases w <;> simp

/-- A cluster configuration passes `validate` exactly when the name, the shard
list and the table list are not empty, every shard has a non-zero id and a DSN
that parses, no id repeats, and some shard is writable. -/
theorem clusterConfig_validate_eq_none_iff (urlParse : String → error) (alloc : Nat) (cc : ClusterConfig) :
    cc.validate urlParse alloc = none ↔
      cc.ClusterName ≠ "" ∧ cc.Shards ≠ [] ∧ cc.Tables ≠ [] ∧
      (∀ s ∈ cc.Shards, s.ShardID ≠ 0 ∧ urlParse s.DSN = none) ∧
      (cc.Shards.map ShardConfig.ShardID).Nodup ∧
      (∃ s ∈ cc.Shards, s.Writable = true) := by
  unfold ClusterConfig.validate
  by_cases hn : cc.ClusterName = ""
  · simp [hn]
  by_cases hs : cc.Shards = []
  · simp [hn, hs]
  by_cases ht : cc.Tables = []
  · simp [hn, hs, ht]
  have hs' : ¬ cc.Shards.length = 0 := by simpa using hs
  have ht' : ¬ cc.Tables.length = 0 := by simpa using ht
  rw [if_neg hn, if_neg hs', if_neg ht']
  cases hl : ClusterConfig.validate.loop urlParse alloc cc.Shards [] false with
  | error err =>
    simp only [false_iff, reduceCtorEq]
    rintro ⟨_, _, _, h1, h2, _⟩
    have := (clusterConfig_validate_loop_ok_iff urlParse alloc cc.Shards [] false
      (false || cc.Shards.any ShardConfig.Writable)).2
      ⟨h1, h2, fun _ _ => rfl, rfl⟩
    rw [hl] at this
    cases this
  | ok w =>
    obtain ⟨h1, h2, _, h4⟩ := (clusterConfig_validate_loop_ok_iff urlParse alloc cc.Shards [] false w).1 hl
    simp only [Bool.false_or] at h4
    cases hw : w with
    | false =>
      simp only [Bool.not_false, if_true, reduceCtorEq, false_iff]
      rintro ⟨_, _, _, _, _, x, hx, hxw⟩
      have : cc.Shards.any ShardConfig.Writable = true := List.any_eq_true.2 ⟨x, hx, hxw⟩
      rw [← h4, hw] at this
      cases this
    | true =>
      simp only [Bool.not_true, Bool.false_eq_true, if_false, true_iff]
      rw [hw] at h4
      obtain ⟨x, hx, hxw⟩ := List.any_eq_true.1 h4.symm
      exact ⟨hn, hs, ht, h1, h2, x, hx, hxw⟩

/-- The configurations `ClusterConfig.validate` rejects, listed by cause. -/
theorem clusterConfig_validate_ne_none_iff (urlParse : String → error) (alloc : Nat) (cc : ClusterConfig) :
    cc.validate urlParse alloc ≠ none ↔
      cc.ClusterName = "" ∨ cc.Shards = [] ∨ cc.Tables = [] ∨
      (∃ s ∈ cc.Shards, s.ShardID = 0) ∨
      (∃ s ∈ cc.Shards, urlParse s.DSN ≠ none) ∨
      (∃ i j : Nat, i < j ∧ j < cc.Shards.length ∧
        (cc.Shards.map ShardConfig.ShardID)[i]? = (cc.Shards.map ShardConfig.ShardID)[j]?) ∨
      (∀ s ∈ cc.Shards, s.Writable = false) := by
  rw [Ne, clusterConfig_validate_eq_none_iff, List.nodup_iff_getElem?_ne_getElem?]
  simp only [List.length_map]
  constructor
  · intro h
    by_contra hc
    push_neg at hc
    obtain ⟨c1, c2, c3, c4, c5, c6, c7⟩ := hc
    apply h
    refine ⟨c1, c2, c3, fun s hs => ⟨c4 s hs, c5 s hs⟩, fun i j hij hj => c6 i j hij hj, ?_⟩
    obtain ⟨x, hx, hxw⟩ := c7
    exact ⟨x, hx, by simpa using hxw⟩
  · rintro h ⟨c1, c2, c3, c4, c5, x, hx, hxw⟩
    rcases h with h | h | h | ⟨s, hs, h⟩ | ⟨s, hs, h⟩ | ⟨i, j, hij, hj, h⟩ | h
    · exact c1 h
    · exact c2 h
    · exact c3 h
    · exact (c4 s hs).1 h
    · exact h (c4 s hs).2
    · exact c5 i j hij hj h
    · rw [h x hx] at hxw; cases hxw

/-- CLAIM C8. `ClusterConfig.validate` returns an error if and only if the
cluster name is empty, or the shard list is empty, or the table list is empty,
or some shard has the id 0, or the DSN of some shard does not parse, or two
positions of the shard list hold the same id, or no shard is writable. In
particular it rejects a configuration with two shards of id 5, one whose shards
are all non-writable, and one that contains a shard of id 0. -/
theorem C8_validate_error_iff (urlParse : String → error) (alloc : Nat) (cc : ClusterConfig) :
    (cc.validate urlParse alloc ≠ none ↔
      cc.ClusterName = "" ∨ cc.Shards = [] ∨ cc.Tables = [] ∨
      (∃ s ∈ cc.Shards, s.ShardID = 0) ∨
      (∃ s ∈ cc.Shards, urlParse s.DSN ≠ none) ∨
      (∃ i j : Nat, i < j ∧ j < cc.Shards.length ∧
        (cc.Shards.map ShardConfig.ShardID)[i]? = (cc.Shards.map ShardConfig.ShardID)[j]?) ∨
      (∀ s ∈ cc.Shards, s.Writable = false)) ∧
    ((∃ i j : Nat, i < j ∧ j < cc.Shards.length ∧
        (cc.Shards.map ShardConfig.ShardID)[i]? = some 5 ∧
        (cc.Shards.map ShardConfig.ShardID)[j]? = some 5) →
      cc.validate urlParse alloc ≠ none) ∧
    ((∀ s ∈ cc.Shards, s.Writable = false) → cc.validate urlParse alloc ≠ none) ∧
    ((∃ s ∈ cc.Shards, s.ShardID = 0) → cc.validate urlParse alloc ≠ none) := by
  have hiff := clusterConfig_validate_ne_none_iff urlParse alloc cc
  refine ⟨hiff, ?_, ?_, ?_⟩
  · rintro ⟨i, j, hij, hj, hi5, hj5⟩
    exact hiff.2 (Or.inr (Or.inr (Or.inr (Or.inr (Or.inr (Or.inl
      ⟨i, j, hij, hj, hi5.trans hj5.symm⟩))))))
  · intro hw
    exact hiff.2 (Or.inr (Or.inr (Or.inr (Or.inr (Or.inr (Or.inr hw))))))
  · intro h0
    exact hiff.2 (Or.inr (Or.inr (Or.inr (Or.inl h0))))

/-- The rejected configurations of the spec, computed: two shards with the id
5, no writable shard, and a shard with the id 0. -/
theorem example_validate_rejects :
    ClusterConfig.validate parseAny 500
        { ClusterName := "main", Tables := ["users"],
          Shards := [{ ShardID := 5, DSN := "a", Writable := true },
                     { ShardID := 5, DSN := "b", Writable := true }] } =
        some (.errorString 500 "duplicate shard_id: 5") ∧
      ClusterConfig.validate parseAny 500
        { ClusterName := "main", Tables := ["users"],
          Shards := [{ ShardID := 1, DSN := "a", Writable := false },
                     { ShardID := 2, DSN := "b", Writable := false }] } =
        some (.errorString 500 "there should be at least one writable shard") ∧
      ClusterConfig.validate parseAny 500
        { ClusterName := "main", Tables := ["users"],
          Shards := [{ ShardID := 0, DSN := "a", Writable := true }] } =
        some (.errorString 500 "shard_id cannot be zero") := by
  refine ⟨by rfl, by rfl, by rfl⟩

/-! ## Cluster construction -/

/-- A successful run of the shard loop of `newCluster` appends one shard per
configured shard, in order and with the configured id and flag, appends the
writable ones to `writable`, and records each in `byID`. -/
theorem newCluster_loop_ok (pgxpoolNew : String → Except GoError Nat)
    (shards : List ShardConfig) (all writable : List shard) (byID : GoMap Nat shard)
    (all' writable' : List shard) (byID' : GoMap Nat shard)
    (h : newCluster.loop pgxpoolNew shards all writable byID = .ok (all', writable', byID')) :
    ∃ news : List shard, all' = all ++ news ∧
      news.map (fun s => (s.id, s.writable)) =
        shards.map (fun sc => (sc.ShardID, sc.Writable)) ∧
      writable' = writable ++ news.filter shard.writable ∧
      byID' = byIDAfter news byID := by
  induction shards generalizing all writable byID with
  | nil =>
    simp only [newCluster.loop, Except.ok.injEq, Prod.mk.injEq] at h
    obtain ⟨h1, h2, h3⟩ := h
    exact ⟨[], by simp [h1], by simp, by simp [h2], by simp [byIDAfter, h3]⟩
  | cons sc rest ih =>
    unfold newCluster.loop at h
    cases hc : connect pgxpoolNew sc.DSN with
    | error err => rw [hc] at h; cases h
    | ok conn =>
      rw [hc] at h
      simp only [] at h
      obtain ⟨news, h1, h2, h3, h4⟩ := ih _ _ _ h
      refine ⟨newShard sc.ShardID sc.Writable conn :: news, ?_, ?_, ?_, ?_⟩
      · simp [h1]
      · simp [h2, newShard]
      · rw [h3]
        cases hw : sc.Writable <;> simp [newShard, shard.writable, List.filter_cons]
      · rw [h4]; simp [byIDAfter, shard.ID, newShard]

/-- Reading `byID` after recording shards with pairwise different ids: the entry
of an id is the recorded shard with that id, or else the earlier entry. -/
theorem lookup_byIDAfter (news : List shard) (byID : GoMap Nat shard)
    (hnd : (news.map shard.id).Nodup) (id : Nat) (s : shard) :
    GoMap.lookup (byIDAfter news byID) id = some s ↔
      (s ∈ news ∧ s.id = id) ∨ (id ∉ news.map shard.id ∧ GoMap.lookup byID id = some s) := by
  induction news generalizing byID with
  | nil => simp [byIDAfter]
  | cons x rest ih =>
    rw [List.map_cons, List.nodup_cons] at hnd
    have hstep : byIDAfter (x :: rest) byID = byIDAfter rest (GoMap.store byID x.id x) := by
      simp [byIDAfter, shard.ID]
    rw [hstep, ih _ hnd.2, GoMap.lookup_store]
    by_cases hx : x.id = id
    · subst hx
      simp only [if_true, Option.some.injEq, List.mem_cons, List.map_cons, true_or,
        not_true_eq_false, false_and, or_false]
      constructor
      · rintro (⟨hs, he⟩ | ⟨_, he⟩)
        · exact absurd (he ▸ List.mem_map_of_mem shard.id hs) hnd.1
        · exact ⟨Or.inl he.symm, by rw [← he]⟩
      · rintro ⟨hs | hs, he⟩
        · exact Or.inr ⟨hnd.1, hs.symm⟩
        · exact absurd (he ▸ List.mem_map_of_mem shard.id hs) hnd.1
    · simp only [if_neg hx, List.mem_cons, List.map_cons, not_or]
      constructor
      · rintro (⟨hs, he⟩ | ⟨hn, hl⟩)
        · exact Or.inl ⟨Or.inr hs, he⟩
        · exact Or.inr ⟨⟨fun e => hx e.symm, hn⟩, hl⟩
      · rintro (⟨hs | hs, he⟩ | ⟨⟨_, hn⟩, hl⟩)
        · exact absurd (hs ▸ he) hx
        · exact Or.inl ⟨hs, he⟩
        · exact Or.inr ⟨hn, hl⟩

/-- What a cluster returned by `newCluster` looks like: the configuration is
valid, `all` lists the configured shards in order, `writable` is its writable
part, the round-robin cursor starts on it, the ids are pairwise different, and
`byID` holds exactly the shards of `all` under their ids. -/
theorem newCluster_ok (urlParse : String → error) (pgxpoolNew : String → Except GoError Nat)
    (alloc : Nat) (cfg : ClusterConfig) (c : cluster) (h : newCluster urlParse pgxpoolNew alloc cfg = .ok c) :
    cfg.validate urlParse alloc = none ∧
      c.name = cfg.ClusterName ∧
      c.all.map (fun s => (s.id, s.writable)) =
        cfg.Shards.map (fun sc => (sc.ShardID, sc.Writable)) ∧
      c.writable = c.all.filter shard.writable ∧
      c.next = { items := c.writable, next := 0 } ∧
      c.writable ≠ [] ∧
      (c.all.map shard.id).Nodup ∧
      (∀ id s, GoMap.lookup c.byID id = some s ↔ s ∈ c.all ∧ s.id = id) := by
  unfold newCluster at h
  cases hv : cfg.validate urlParse alloc with
  | some err => rw [hv] at h; cases h
  | none =>
    rw [hv] at h
    simp only [] at h
    cases hl : newCluster.loop pgxpoolNew cfg.Shards [] [] [] with
    | error err => rw [hl] at h; cases h
    | ok r =>
      obtain ⟨all, writable, byID⟩ := r
      rw [hl] at h
      simp only [] at h
      obtain ⟨news, h1, h2, h3, h4⟩ := newCluster_loop_ok _ _ _ _ _ _ _ _ hl
      simp only [List.nil_append] at h1 h3
      subst h1 h3
      have hids : (all.map shard.id).Nodup := by
        have e : all.map shard.id = cfg.Shards.map ShardConfig.ShardID := by
          have := congrArg (List.map Prod.fst) h2
          simpa [List.map_map, Function.comp_def] using this
        rw [e]
        exact ((clusterConfig_validate_eq_none_iff urlParse alloc cfg).1 hv).2.2.2.2.1
      cases hw : all.filter shard.writable with
      | nil => rw [hw] at h; simp [RoundRobin.New] at h
      | cons w ws =>
        rw [hw] at h
        simp only [RoundRobin.New, Except.ok.injEq] at h
        subst h
        refine ⟨rfl, rfl, h2, hw.symm, rfl, by simp, hids, ?_⟩
        intro id s
        simp only []
        rw [h4, lookup_byIDAfter all [] hids]
        simp [GoMap.lookup]

/-! ## Routing by key -/

/-- In a cluster built by `newCluster`, `ShardByID` returns the shard of `all`
with that id, and nothing for an id no shard has. -/
theorem ShardByID_eq_some_iff (urlParse : String → error)
    (pgxpoolNew : String → Except GoError Nat) (alloc : Nat) (cfg : ClusterConfig)
    (c : cluster)
    (h : newCluster urlParse pgxpoolNew alloc cfg = .ok c) (id : Nat) (s : shard) :
    c.ShardByID id = some s ↔ s ∈ c.all ∧ s.id = id := by
  have hb := (newCluster_ok urlParse pgxpoolNew alloc cfg c h).2.2.2.2.2.2.2 id s
  unfold cluster.ShardByID
  cases hl : GoMap.lookup c.byID id with
  | none => rw [hl] at hb; exact hb
  | some t => rw [hl] at hb; exact hb

/-- The shards of a cluster built by `newCluster` and the configured shards
correspond: same ids, same flags. -/
theorem mem_all_iff_config (urlParse : String → error)
    (pgxpoolNew : String → Except GoError Nat) (alloc : Nat) (cfg : ClusterConfig)
    (c : cluster)
    (h : newCluster urlParse pgxpoolNew alloc cfg = .ok c) (id : Nat) (w : Bool) :
    (∃ s ∈ c.all, s.id = id ∧ s.writable = w) ↔
      ∃ sc ∈ cfg.Shards, sc.ShardID = id ∧ sc.Writable = w := by
  have h2 := (newCluster_ok urlParse pgxpoolNew alloc cfg c h).2.2.1
  have e1 : (∃ s ∈ c.all, s.id = id ∧ s.writable = w) ↔
      (id, w) ∈ c.all.map (fun s => (s.id, s.writable)) := by
    simp [List.mem_map]
  have e2 : (∃ sc ∈ cfg.Shards, sc.ShardID = id ∧ sc.Writable = w) ↔
      (id, w) ∈ cfg.Shards.map (fun sc => (sc.ShardID, sc.Writable)) := by
    simp [List.mem_map]
  rw [e1, e2, h2]

/-- CLAIM C7. In a cluster built by `newCluster`, `ShardByKey key` is
`ShardByID (extractShardID key)`; it returns a shard exactly when some configured
shard has the id `extractShardID key`; the shard returned has that id and the
writable flag of the configured shard with that id, writable or not; and it
returns nil when no configured shard has that id. -/
theorem C7_ShardByKey_resolution (urlParse : String → error)
    (pgxpoolNew : String → Except GoError Nat) (alloc : Nat) (cfg : ClusterConfig)
    (c : cluster)
    (h : newCluster urlParse pgxpoolNew alloc cfg = .ok c) (key : Nat) :
    c.ShardByKey key = c.ShardByID (extractShardID key) ∧
      ((∃ s, c.ShardByKey key = some s) ↔
        ∃ sc ∈ cfg.Shards, sc.ShardID = extractShardID key) ∧
      (∀ s, c.ShardByKey key = some s →
        s ∈ c.AllShards ∧ s.ID = extractShardID key ∧
        ∀ sc ∈ cfg.Shards, sc.ShardID = extractShardID key → s.Writable = sc.Writable) ∧
      ((∀ sc ∈ cfg.Shards, sc.ShardID ≠ extractShardID key) → c.ShardByKey key = none) := by
  have hby := ShardByID_eq_some_iff urlParse pgxpoolNew alloc cfg c h (extractShardID key)
  have hcfg := mem_all_iff_config urlParse pgxpoolNew alloc cfg c h (extractShardID key)
  have hval := (clusterConfig_validate_eq_none_iff urlParse alloc cfg).1
    (newCluster_ok urlParse pgxpoolNew alloc cfg c h).1
  have hiff : (∃ s, c.ShardByKey key = some s) ↔
      ∃ sc ∈ cfg.Shards, sc.ShardID = extractShardID key := by
    unfold cluster.ShardByKey
    constructor
    · rintro ⟨s, hs⟩
      obtain ⟨hm, hid⟩ := (hby s).1 hs
      obtain ⟨sc, hsc, h1, _⟩ := (hcfg s.writable).1 ⟨s, hm, hid, rfl⟩
      exact ⟨sc, hsc, h1⟩
    · rintro ⟨sc, hsc, hid⟩
      obtain ⟨s, hm, h1, _⟩ := (hcfg sc.Writable).2 ⟨sc, hsc, hid, rfl⟩
      exact ⟨s, (hby s).2 ⟨hm, h1⟩⟩
  refine ⟨rfl, hiff, ?_, ?_⟩
  · intro s hs
    obtain ⟨hm, hid⟩ := (hby s).1 hs
    refine ⟨hm, hid, ?_⟩
    intro sc hsc hscid
    obtain ⟨sc', hsc', h1, h2⟩ := (hcfg s.writable).1 ⟨s, hm, hid, rfl⟩
    have : sc' = sc :=
      List.inj_on_of_nodup_map hval.2.2.2.2.1 hsc' hsc (h1.trans hscid.symm)
    rw [shard.Writable, ← h2, this]
  · intro hno
    cases hk : c.ShardByKey key with
    | none => rfl
    | some s =>
      obtain ⟨sc, hsc, hid⟩ := hiff.1 ⟨s, hk⟩
      exact absurd hid (hno sc hsc)

/-- Witness of C7 on the example cluster: a key with the shard field 2 resolves to
shard 2, which is not writable. -/
theorem C7_ShardByKey_resolution_witness :
    exampleCluster.ShardByKey 2048 = exampleCluster.ShardByID (extractShardID 2048) ∧
      ((∃ s, exampleCluster.ShardByKey 2048 = some s) ↔
        ∃ sc ∈ exampleConfig.Shards, sc.ShardID = extractShardID 2048) ∧
      (∀ s, exampleCluster.ShardByKey 2048 = some s →
        s ∈ exampleCluster.AllShards ∧ s.ID = extractShardID 2048 ∧
        ∀ sc ∈ exampleConfig.Shards, sc.ShardID = extractShardID 2048 →
          s.Writable = sc.Writable) ∧
      ((∀ sc ∈ exampleConfig.Shards, sc.ShardID ≠ extractShardID 2048) →
        exampleCluster.ShardByKey 2048 = none) :=
  C7_ShardByKey_resolution parseAny openAny 500 exampleConfig exampleCluster (by rfl) 2048

/-- The end-to-end example: on the cluster built from `exampleConfig`, a key with
the shard field 2 resolves to shard 2 although it is not writable. -/
theorem example_ShardByKey_not_writable :
    newCluster parseAny openAny 500 exampleConfig = .ok exampleCluster ∧
      exampleCluster.ShardByKey (shl64 9 23 ||| shl64 2 10 ||| 3) =
        some { id := 2, writable := false, conn := { pool := 2 } } := by
  refine ⟨by rfl, by decide⟩

/-! ## EveryShard -/

/-- The loop of `EveryShard` on a list that splits at the first failing shard. -/
theorem EveryShard_loop_first_failure (fn : shard → error) (pre post : List shard) (s : shard)
    (hpre : ∀ t ∈ pre, fn t = none) (hs : fn s ≠ none) :
    cluster.EveryShard.loop fn (pre ++ s :: post) = (pre ++ [s], fn s) := by
  induction pre with
  | nil =>
    cases hf : fn s with
    | none => exact absurd hf hs
    | some err => simp [cluster.EveryShard.loop, hf]
  | cons t pre ih =>
    have ht : fn t = none := hpre t (by simp)
    have := ih (fun u hu => hpre u (by simp [hu]))
    simp [cluster.EveryShard.loop, ht, this]

/-- The loop of `EveryShard` on a list where `fn` never fails. -/
theorem EveryShard_loop_all_ok (fn : shard → error) (l : List shard)
    (hl : ∀ t ∈ l, fn t = none) : cluster.EveryShard.loop fn l = (l, none) := by
  induction l with
  | nil => simp [cluster.EveryShard.loop]
  | cons t l ih =>
    have ht : fn t = none := hl t (by simp)
    have := ih (fun u hu => hl u (by simp [hu]))
    simp [cluster.EveryShard.loop, ht, this]

/-- A list on which `fn` fails somewhere splits at the first failure. -/
theorem exists_first_failure (fn : shard → error) (l : List shard)
    (hl : ∃ t ∈ l, fn t ≠ none) :
    ∃ pre s post, l = pre ++ s :: post ∧ (∀ t ∈ pre, fn t = none) ∧ fn s ≠ none := by
  induction l with
  | nil => simp at hl
  | cons t l ih =>
    by_cases ht : fn t = none
    · have : ∃ u ∈ l, fn u ≠ none := by
        obtain ⟨u, hu, hf⟩ := hl
        rcases List.mem_cons.1 hu with rfl | hu
        · exact absurd ht hf
        · exact ⟨u, hu, hf⟩
      obtain ⟨pre, s, post, e, h1, h2⟩ := ih this
      refine ⟨t :: pre, s, post, by simp [e], ?_, h2⟩
      intro u hu
      rcases List.mem_cons.1 hu with rfl | hu
      · exact ht
      · exact h1 u hu
    · exact ⟨[], t, l, rfl, by simp, ht⟩

/-- CLAIM C10. `EveryShard` calls `fn` on the shards in the order of `AllShards`,
which for a cluster built by `newCluster` is the order of the configured shard
list; when `fn` fails on some shard, it returns the error of the first such
shard and has called `fn` on the shards up to that one and on no later shard;
and it returns nil if and only if `fn` succeeds on every shard, having then
called `fn` on all of them. -/
theorem C10_EveryShard_fail_fast (c : cluster) (fn : shard → error) :
    (c.EveryShard fn).1 = c.AllShards.take (c.EveryShard fn).1.length ∧
      (∀ pre s post, c.AllShards = pre ++ s :: post → (∀ t ∈ pre, fn t = none) →
        fn s ≠ none → (c.EveryShard fn).2 = fn s ∧ (c.EveryShard fn).1 = pre ++ [s]) ∧
      ((c.EveryShard fn).2 = none ↔ ∀ s ∈ c.AllShards, fn s = none) ∧
      ((c.EveryShard fn).2 = none → (c.EveryShard fn).1 = c.AllShards) ∧
      (∀ urlParse pgxpoolNew alloc cfg, newCluster urlParse pgxpoolNew alloc cfg = .ok c →
        c.AllShards.map (fun s => (s.ID, s.Writable)) =
          cfg.Shards.map (fun sc => (sc.ShardID, sc.Writable))) := by
  have hfail : ∀ pre s post, c.AllShards = pre ++ s :: post → (∀ t ∈ pre, fn t = none) →
      fn s ≠ none → (c.EveryShard fn).2 = fn s ∧ (c.EveryShard fn).1 = pre ++ [s] := by
    intro pre s post e hpre hs
    unfold cluster.AllShards at e
    unfold cluster.EveryShard
    rw [e, EveryShard_loop_first_failure fn pre post s hpre hs]
    exact ⟨rfl, rfl⟩
  have hiff : (c.EveryShard fn).2 = none ↔ ∀ s ∈ c.AllShards, fn s = none := by
    constructor
    · intro hnil
      by_contra hc
      push_neg at hc
      obtain ⟨pre, s, post, e, h1, h2⟩ := exists_first_failure fn c.AllShards hc
      rw [(hfail pre s post e h1 h2).1] at hnil
      exact h2 hnil
    · intro hall
      unfold cluster.EveryShard
      rw [EveryShard_loop_all_ok fn c.all hall]
  have hallok : (c.EveryShard fn).2 = none → (c.EveryShard fn).1 = c.AllShards := by
    intro hnil
    unfold cluster.EveryShard
    rw [EveryShard_loop_all_ok fn c.all (hiff.1 hnil)]
    rfl
  refine ⟨?_, hfail, hiff, hallok, ?_⟩
  · by_cases hc : ∃ t ∈ c.AllShards, fn t ≠ none
    · obtain ⟨pre, s, post, e, h1, h2⟩ := exists_first_failure fn c.AllShards hc
      rw [(hfail pre s post e h1 h2).2, e]
      have e2 : pre ++ s :: post = (pre ++ [s]) ++ post := by simp
      rw [e2]
      exact (List.take_left' rfl).symm
    · push_neg at hc
      rw [hallok (hiff.2 hc)]
      simp
  · intro urlParse pgxpoolNew alloc cfg h
    exact (newCluster_ok urlParse pgxpoolNew alloc cfg c h).2.2.1

/-! ## Round-robin write placement -/

/-- Call number `k` of `NextShard` returns the item `k` steps after the cursor,
counted cyclically. -/
theorem NextShardCall_eq (c : cluster) (k : Nat) :
    c.NextShardCall k = c.next.items.get? ((c.next.next + k) % c.next.items.length) := by
  induction k generalizing c with
  | zero => simp [cluster.NextShardCall, cluster.NextShard, RoundRobin.Next]
  | succ k ih =>
    rw [cluster.NextShardCall, ih]
    simp only [cluster.NextShard, RoundRobin.Next]
    rw [Nat.add_assoc, Nat.add_comm 1 k]

/-- The writable shards of a cluster built by `newCluster` are the configured
writable shards, in configuration order. -/
theorem writable_ids_eq_config (urlParse : String → error)
    (pgxpoolNew : String → Except GoError Nat) (alloc : Nat) (cfg : ClusterConfig)
    (c : cluster)
    (h : newCluster urlParse pgxpoolNew alloc cfg = .ok c) :
    c.writable.map shard.ID =
      (cfg.Shards.filter ShardConfig.Writable).map ShardConfig.ShardID := by
  obtain ⟨_, _, h2, h3, _⟩ := newCluster_ok urlParse pgxpoolNew alloc cfg c h
  have e1 : (c.all.filter shard.writable).map (fun s => (s.id, s.writable)) =
      (c.all.map (fun s => (s.id, s.writable))).filter (fun p => p.2) := by
    rw [List.filter_map]; rfl
  have e2 : (cfg.Shards.filter ShardConfig.Writable).map (fun sc => (sc.ShardID, sc.Writable)) =
      (cfg.Shards.map (fun sc => (sc.ShardID, sc.Writable))).filter (fun p => p.2) := by
    rw [List.filter_map]; rfl
  have e3 := congrArg (List.map Prod.fst) (e1.trans ((congrArg _ h2).trans e2.symm))
  rw [h3]
  simpa [List.map_map, Function.comp_def, shard.ID] using e3

/-- CLAIM C4. Round-robin fairness of `NextShard` on a cluster built by
`newCluster`, with `N` the number of writable shards: `N ≥ 1`; the writable
shards are the shards of the cluster with the writable flag, which are the
configured writable shards, and are pairwise different; the first `N` calls
return the writable shards one after the other, each once; every call returns
a writable shard; call `k + N` returns what call `k` returns; and with exactly
one writable shard every call returns it. -/
theorem C4_NextShard_round_robin (urlParse : String → error)
    (pgxpoolNew : String → Except GoError Nat) (alloc : Nat) (cfg : ClusterConfig)
    (c : cluster)
    (h : newCluster urlParse pgxpoolNew alloc cfg = .ok c) :
    1 ≤ c.writable.length ∧
      c.writable = c.AllShards.filter shard.Writable ∧
      c.writable.map shard.ID =
        (cfg.Shards.filter ShardConfig.Writable).map ShardConfig.ShardID ∧
      c.writable.Nodup ∧
      (List.range c.writable.length).map c.NextShardCall = c.writable.map some ∧
      (∀ k, ∃ s, c.NextShardCall k = some s ∧ s ∈ c.AllShards ∧ s.Writable = true) ∧
      (∀ k, c.NextShardCall (k + c.writable.length) = c.NextShardCall k) ∧
      (∀ s, c.writable = [s] → ∀ k, c.NextShardCall k = some s) := by
  obtain ⟨_, _, _, h3, h4, h5, h6, _⟩ := newCluster_ok urlParse pgxpoolNew alloc cfg c h
  have hpos : 0 < c.writable.length := List.length_pos.2 h5
  have hcall : ∀ k, c.NextShardCall k = c.writable.get? (k % c.writable.length) := by
    intro k
    rw [NextShardCall_eq, h4]
    simp
  have hnd : c.writable.Nodup := by
    rw [h3]
    exact (List.Nodup.of_map _ h6).filter _
  refine ⟨hpos, h3, writable_ids_eq_config urlParse pgxpoolNew alloc cfg c h, hnd, ?_, ?_, ?_, ?_⟩
  · apply List.ext_get?
    intro n
    by_cases hn : n < c.writable.length
    · simp [List.get?_eq_getElem?, hn, hcall, Nat.mod_eq_of_lt hn]
    · have hn' : c.writable.length ≤ n := Nat.le_of_not_lt hn
      have e1 : (List.range c.writable.length)[n]? = none :=
        List.getElem?_eq_none (by simpa using hn')
      have e2 : c.writable[n]? = none := List.getElem?_eq_none hn'
      simp [List.get?_eq_getElem?, e1, e2]
  · intro k
    have hlt : k % c.writable.length < c.writable.length := Nat.mod_lt _ hpos
    refine ⟨c.writable[k % c.writable.length], ?_, ?_, ?_⟩
    · rw [hcall, List.get?_eq_getElem?, List.getElem?_eq_getElem hlt]
    · have hm : c.writable[k % c.writable.length] ∈ c.all.filter shard.writable := by
        rw [← h3]; exact List.getElem_mem hlt
      exact (List.mem_filter.1 hm).1
    · have hm : c.writable[k % c.writable.length] ∈ c.all.filter shard.writable := by
        rw [← h3]; exact List.getElem_mem hlt
      exact (List.mem_filter.1 hm).2
  · intro k
    rw [hcall, hcall, Nat.add_mod_right]
  · intro s hs k
    rw [hcall, hs]
    simp [Nat.mod_one]

/-- Witness of C4 on a cluster with two writable shards. -/
theorem C4_NextShard_round_robin_witness :
    1 ≤ wideCluster.writable.length ∧
      wideCluster.writable = wideCluster.AllShards.filter shard.Writable ∧
      wideCluster.writable.map shard.ID =
        (wideConfig.Shards.filter ShardConfig.Writable).map ShardConfig.ShardID ∧
      wideCluster.writable.Nodup ∧
      (List.range wideCluster.writable.length).map wideCluster.NextShardCall =
        wideCluster.writable.map some ∧
      (∀ k, ∃ s, wideCluster.NextShardCall k = some s ∧ s ∈ wideCluster.AllShards ∧
        s.Writable = true) ∧
      (∀ k, wideCluster.NextShardCall (k + wideCluster.writable.length) =
        wideCluster.NextShardCall k) ∧
      (∀ s, wideCluster.writable = [s] → ∀ k, wideCluster.NextShardCall k = some s) :=
  C4_NextShard_round_robin parseAny openAny 500 wideConfig wideCluster (by rfl)

/-- The end-to-end example: with shard 1 writable and shard 2 not, three calls of
`NextShard` return shard 1 three times. -/
theorem example_NextShard_three_calls :
    newCluster parseAny openAny 500 exampleConfig = .ok exampleCluster ∧
      (List.range 3).map exampleCluster.NextShardCall =
        [some { id := 1, writable := true, conn := { pool := 1 } },
         some { id := 1, writable := true, conn := { pool := 1 } },
         some { id := 1, writable := true, conn := { pool := 1 } }] := by
  refine ⟨by rfl, by decide⟩

/-! ## Go maps: keys and entries -/

/-- The assignment `m[k] = v` keeps the keys already there, in place, and adds
`k` when it is new. -/
theorem GoMap.keys_store {κ ν : Type} [DecidableEq κ] (m : GoMap κ ν) (k : κ) (v : ν) :
    (GoMap.store m k v).map Prod.fst =
      if k ∈ m.map Prod.fst then m.map Prod.fst else m.map Prod.fst ++ [k] := by
  induction m with
  | nil => simp [GoMap.store]
  | cons p m ih =>
    obtain ⟨a, b⟩ := p
    by_cases hak : a = k
    · subst hak
      simp [GoMap.store]
    · have hka : ¬ k = a := fun e => hak e.symm
      by_cases hm : k ∈ m.map Prod.fst
      · rw [if_pos hm] at ih
        have hm' : k ∈ ((a, b) :: m).map Prod.fst := by
          rw [List.map_cons]; exact List.mem_cons_of_mem _ hm
        rw [if_pos hm']
        simp [GoMap.store, hak, ih]
      · rw [if_neg hm] at ih
        have hm' : ¬ k ∈ ((a, b) :: m).map Prod.fst := by
          rw [List.map_cons, List.mem_cons]
          rintro (e | e)
          · exact hka e
          · exact hm e
        rw [if_neg hm']
        simp [GoMap.store, hak, ih]

/-- The assignment `m[k] = v` keeps the keys of the map distinct. -/
theorem GoMap.nodup_keys_store {κ ν : Type} [DecidableEq κ] (m : GoMap κ ν) (k : κ) (v : ν)
    (hm : (m.map Prod.fst).Nodup) : ((GoMap.store m k v).map Prod.fst).Nodup := by
  rw [GoMap.keys_store]
  by_cases hk : k ∈ m.map Prod.fst
  · rw [if_pos hk]; exact hm
  · rw [if_neg hk]
    exact List.Nodup.append hm (List.nodup_singleton k) (by simpa using hk)

/-- In a map with distinct keys, the entries are what `lookup` reads. -/
theorem GoMap.mem_iff_lookup {κ ν : Type} [DecidableEq κ] (m : GoMap κ ν) (k : κ) (v : ν)
    (hm : (m.map Prod.fst).Nodup) : (k, v) ∈ m ↔ GoMap.lookup m k = some v := by
  induction m with
  | nil => simp [GoMap.lookup]
  | cons p m ih =>
    obtain ⟨a, b⟩ := p
    rw [List.map_cons, List.nodup_cons] at hm
    by_cases hak : a = k
    · subst hak
      simp only [GoMap.lookup, if_true, List.mem_cons, Prod.mk.injEq, true_and,
        Option.some.injEq]
      constructor
      · rintro (e | e)
        · exact e.symm
        · exact absurd (List.mem_map_of_mem Prod.fst e) hm.1
      · intro e; exact Or.inl e.symm
    · have hka : ¬ k = a := fun e => hak e.symm
      simp [GoMap.lookup, hak, hka, ih hm.2]

/-- Appending a key to the group of a shard adds that key, and nothing else, to
the keys held by the map. -/
theorem GoMap.flatten_store_append {κ α : Type} [DecidableEq κ] (m : GoMap κ (List α))
    (k : κ) (x : α) :
    ((GoMap.store m k ((GoMap.lookup m k).getD [] ++ [x])).map Prod.snd).flatten.Perm
      ((m.map Prod.snd).flatten ++ [x]) := by
  induction m with
  | nil => simp [GoMap.store, GoMap.lookup]
  | cons p m ih =>
    obtain ⟨a, b⟩ := p
    by_cases hak : a = k
    · subst hak
      simp only [GoMap.store, GoMap.lookup, if_true, Option.getD_some, List.map_cons,
        List.flatten_cons, List.append_assoc]
      exact List.Perm.append_left b List.perm_append_comm
    · simp only [GoMap.store, GoMap.lookup, if_neg hak, List.map_cons, List.flatten_cons,
        List.append_assoc]
      exact List.Perm.append_left b ih

/-! ## Grouping keys by shard -/

/-- The loop of `ShardsByKeys` keeps the keys of the result map distinct. -/
theorem ShardsByKeys_loop_nodup (c : cluster) (ks : List Nat) (result : GoMap shard (List Nat))
    (hr : (result.map Prod.fst).Nodup) :
    ((cluster.ShardsByKeys.loop c ks result).map Prod.fst).Nodup := by
  induction ks generalizing result with
  | nil => simpa [cluster.ShardsByKeys.loop] using hr
  | cons key ks ih =>
    unfold cluster.ShardsByKeys.loop
    cases hk : c.ShardByKey key with
    | none => exact ih result hr
    | some s => exact ih _ (GoMap.nodup_keys_store _ _ _ hr)

/-- The group of a shard after the loop of `ShardsByKeys`: the group it had
before, followed by the keys that resolve to the shard, in input order; the
shard gets no entry when it had none and no key resolves to it. -/
theorem ShardsByKeys_loop_lookup (c : cluster) (ks : List Nat)
    (result : GoMap shard (List Nat)) (s : shard) :
    GoMap.lookup (cluster.ShardsByKeys.loop c ks result) s =
      if ks.filter (fun k => c.ShardByKey k = some s) = [] then GoMap.lookup result s
      else some ((GoMap.lookup result s).getD [] ++
        ks.filter (fun k => c.ShardByKey k = some s)) := by
  induction ks generalizing result with
  | nil => simp [cluster.ShardsByKeys.loop]
  | cons key ks ih =>
    unfold cluster.ShardsByKeys.loop
    cases hk : c.ShardByKey key with
    | none =>
      simp only []
      rw [ih]
      simp [List.filter_cons, hk]
    | some t =>
      simp only []
      rw [ih, GoMap.lookup_store]
      by_cases hts : t = s
      · subst hts
        have hf : (key :: ks).filter (fun k => c.ShardByKey k = some t) =
            key :: ks.filter (fun k => c.ShardByKey k = some t) := by
          simp [List.filter_cons, hk]
        rw [hf]
        by_cases he : ks.filter (fun k => c.ShardByKey k = some t) = []
        · simp [he]
        · simp [he]
      · have hf : (key :: ks).filter (fun k => c.ShardByKey k = some s) =
            ks.filter (fun k => c.ShardByKey k = some s) := by
          simp [List.filter_cons, hk, hts]
        rw [hf, if_neg hts]

/-- The keys held by the result map after the loop of `ShardsByKeys`: those held
before and the keys that resolve to a shard, as a multiset. -/
theorem ShardsByKeys_loop_flatten (c : cluster) (ks : List Nat)
    (result : GoMap shard (List Nat)) :
    ((cluster.ShardsByKeys.loop c ks result).map Prod.snd).flatten.Perm
      ((result.map Prod.snd).flatten ++ ks.filter (fun k => (c.ShardByKey k).isSome)) := by
  induction ks generalizing result with
  | nil => simp [cluster.ShardsByKeys.loop]
  | cons key ks ih =>
    unfold cluster.ShardsByKeys.loop
    cases hk : c.ShardByKey key with
    | none =>
      simp only []
      refine (ih result).trans ?_
      simp [List.filter_cons, hk]
    | some t =>
      simp only []
      refine (ih _).trans ?_
      have hf : (key :: ks).filter (fun k => (c.ShardByKey k).isSome) =
          key :: ks.filter (fun k => (c.ShardByKey k).isSome) := by
        simp [List.filter_cons, hk]
      rw [hf]
      refine ((GoMap.flatten_store_append result t key).append_right _).trans ?_
      simp

/-- In a cluster built by `newCluster`, a key resolves to a shard of the cluster
exactly when its shard field is the id of that shard. -/
theorem ShardByKey_eq_some_iff (urlParse : String → error)
    (pgxpoolNew : String → Except GoError Nat) (alloc : Nat) (cfg : ClusterConfig)
    (c : cluster)
    (h : newCluster urlParse pgxpoolNew alloc cfg = .ok c) (key : Nat) (s : shard) :
    c.ShardByKey key = some s ↔ s ∈ c.all ∧ extractShardID key = s.id := by
  unfold cluster.ShardByKey
  rw [ShardByID_eq_some_iff urlParse pgxpoolNew alloc cfg c h]
  exact and_congr_right (fun _ => eq_comm)

/-- In a cluster built by `newCluster`, a key resolves to some shard exactly when
its shard field is a configured shard id. -/
theorem ShardByKey_exists_iff (urlParse : String → error)
    (pgxpoolNew : String → Except GoError Nat) (alloc : Nat) (cfg : ClusterConfig)
    (c : cluster)
    (h : newCluster urlParse pgxpoolNew alloc cfg = .ok c) (key : Nat) :
    (∃ s, c.ShardByKey key = some s) ↔
      ∃ sc ∈ cfg.Shards, sc.ShardID = extractShardID key := by
  constructor
  · rintro ⟨s, hs⟩
    obtain ⟨hm, hid⟩ := (ShardByKey_eq_some_iff urlParse pgxpoolNew alloc cfg c h key s).1 hs
    obtain ⟨sc, hsc, h1, _⟩ :=
      (mem_all_iff_config urlParse pgxpoolNew alloc cfg c h s.id s.writable).1 ⟨s, hm, rfl, rfl⟩
    exact ⟨sc, hsc, h1.trans hid.symm⟩
  · rintro ⟨sc, hsc, hid⟩
    obtain ⟨s, hm, h1, _⟩ :=
      (mem_all_iff_config urlParse pgxpoolNew alloc cfg c h sc.ShardID sc.Writable).2
        ⟨sc, hsc, rfl, rfl⟩
    exact ⟨s, (ShardByKey_eq_some_iff urlParse pgxpoolNew alloc cfg c h key s).2
      ⟨hm, hid.symm.trans h1.symm⟩⟩

/-- CLAIM C5. `ShardsByKeys` on a cluster built by `newCluster`: the result map
has one entry per shard; a shard that some key resolves to is a shard of the
cluster and is mapped to the keys of the input whose `extractShardID` is its id,
in input order with repetitions kept; a shard that no key resolves to has no
entry; every group of the map is not empty; and a key whose shard id is not
configured is in no group. -/
theorem C5_ShardsByKeys_grouping (urlParse : String → error)
    (pgxpoolNew : String → Except GoError Nat) (alloc : Nat) (cfg : ClusterConfig)
    (c : cluster)
    (h : newCluster urlParse pgxpoolNew alloc cfg = .ok c) (ks : List Nat) :
    ((c.ShardsByKeys ks).map Prod.fst).Nodup ∧
      (∀ s, (∃ k ∈ ks, c.ShardByKey k = some s) →
        s ∈ c.AllShards ∧
        GoMap.lookup (c.ShardsByKeys ks) s =
          some (ks.filter (fun k => extractShardID k = s.ID))) ∧
      (∀ s, (¬ ∃ k ∈ ks, c.ShardByKey k = some s) →
        GoMap.lookup (c.ShardsByKeys ks) s = none) ∧
      (∀ s g, (s, g) ∈ c.ShardsByKeys ks →
        s ∈ c.AllShards ∧ g ≠ [] ∧ g = ks.filter (fun k => extractShardID k = s.ID)) ∧
      (∀ k ∈ ks, (∀ sc ∈ cfg.Shards, sc.ShardID ≠ extractShardID k) →
        ∀ s g, (s, g) ∈ c.ShardsByKeys ks → k ∉ g) := by
  have hnd : ((c.ShardsByKeys ks).map Prod.fst).Nodup :=
    ShardsByKeys_loop_nodup c ks [] (by simp)
  have hlook : ∀ s, GoMap.lookup (c.ShardsByKeys ks) s =
      if ks.filter (fun k => c.ShardByKey k = some s) = [] then none
      else some (ks.filter (fun k => c.ShardByKey k = some s)) := by
    intro s
    unfold cluster.ShardsByKeys
    rw [ShardsByKeys_loop_lookup]
    simp [GoMap.lookup]
  have hfilter : ∀ s, s ∈ c.all →
      ks.filter (fun k => c.ShardByKey k = some s) =
        ks.filter (fun k => extractShardID k = s.ID) := by
    intro s hs
    apply List.filter_congr
    intro k _
    have := ShardByKey_eq_some_iff urlParse pgxpoolNew alloc cfg c h k s
    simp only [shard.ID, decide_eq_decide]
    rw [this]
    exact ⟨fun hh => hh.2, fun hh => ⟨hs, hh⟩⟩
  have hsome : ∀ s, (∃ k ∈ ks, c.ShardByKey k = some s) →
      s ∈ c.AllShards ∧
      GoMap.lookup (c.ShardsByKeys ks) s =
        some (ks.filter (fun k => extractShardID k = s.ID)) := by
    rintro s ⟨k, hk, hres⟩
    have hs : s ∈ c.all := ((ShardByKey_eq_some_iff urlParse pgxpoolNew alloc cfg c h k s).1 hres).1
    have hne : ks.filter (fun k => c.ShardByKey k = some s) ≠ [] := by
      intro he
      have : k ∈ ks.filter (fun k => c.ShardByKey k = some s) :=
        List.mem_filter.2 ⟨hk, by simpa using hres⟩
      rw [he] at this
      cases this
    refine ⟨hs, ?_⟩
    rw [hlook, if_neg hne, hfilter s hs]
  have hnone : ∀ s, (¬ ∃ k ∈ ks, c.ShardByKey k = some s) →
      GoMap.lookup (c.ShardsByKeys ks) s = none := by
    intro s hno
    have he : ks.filter (fun k => c.ShardByKey k = some s) = [] := by
      rw [List.filter_eq_nil_iff]
      intro k hk hres
      exact hno ⟨k, hk, by simpa using hres⟩
    rw [hlook, if_pos he]
  have hentry : ∀ s g, (s, g) ∈ c.ShardsByKeys ks →
      s ∈ c.AllShards ∧ g ≠ [] ∧ g = ks.filter (fun k => extractShardID k = s.ID) := by
    intro s g hmem
    have hl := (GoMap.mem_iff_lookup _ s g hnd).1 hmem
    by_cases hex : ∃ k ∈ ks, c.ShardByKey k = some s
    · obtain ⟨hs, hg⟩ := hsome s hex
      rw [hl] at hg
      have hg' : g = ks.filter (fun k => extractShardID k = s.ID) := Option.some.inj hg
      refine ⟨hs, ?_, hg'⟩
      obtain ⟨k, hk, hres⟩ := hex
      have hkid := ((ShardByKey_eq_some_iff urlParse pgxpoolNew alloc cfg c h k s).1 hres).2
      intro he
      have : k ∈ ks.filter (fun k => extractShardID k = s.ID) :=
        List.mem_filter.2 ⟨hk, by simpa [shard.ID] using hkid⟩
      rw [← hg', he] at this
      cases this
    · rw [hnone s hex] at hl
      cases hl
  refine ⟨hnd, hsome, hnone, hentry, ?_⟩
  intro k _ hno s g hmem hkg
  obtain ⟨hs, _, hg⟩ := hentry s g hmem
  rw [hg] at hkg
  have hkid : extractShardID k = s.id := by
    simpa [shard.ID] using (List.mem_filter.1 hkg).2
  obtain ⟨sc, hsc, hid, _⟩ :=
    (mem_all_iff_config urlParse pgxpoolNew alloc cfg c h s.id s.writable).1 ⟨s, hs, rfl, rfl⟩
  exact hno sc hsc (hid.trans hkid.symm)

/-- Witness of C5 on the example cluster: keys of shard 1, of shard 2 and of the
unconfigured shard 4, one of them repeated. -/
theorem C5_ShardsByKeys_grouping_witness :
    ((exampleCluster.ShardsByKeys [1024, 2048, 1025, 4096, 1024]).map Prod.fst).Nodup ∧
      (∀ s, (∃ k ∈ [1024, 2048, 1025, 4096, 1024], exampleCluster.ShardByKey k = some s) →
        s ∈ exampleCluster.AllShards ∧
        GoMap.lookup (exampleCluster.ShardsByKeys [1024, 2048, 1025, 4096, 1024]) s =
          some ([1024, 2048, 1025, 4096, 1024].filter (fun k => extractShardID k = s.ID))) ∧
      (∀ s, (¬ ∃ k ∈ [1024, 2048, 1025, 4096, 1024], exampleCluster.ShardByKey k = some s) →
        GoMap.lookup (exampleCluster.ShardsByKeys [1024, 2048, 1025, 4096, 1024]) s = none) ∧
      (∀ s g, (s, g) ∈ exampleCluster.ShardsByKeys [1024, 2048, 1025, 4096, 1024] →
        s ∈ exampleCluster.AllShards ∧ g ≠ [] ∧
        g = [1024, 2048, 1025, 4096, 1024].filter (fun k => extractShardID k = s.ID)) ∧
      (∀ k ∈ [1024, 2048, 1025, 4096, 1024],
        (∀ sc ∈ exampleConfig.Shards, sc.ShardID ≠ extractShardID k) →
        ∀ s g, (s, g) ∈ exampleCluster.ShardsByKeys [1024, 2048, 1025, 4096, 1024] → k ∉ g) :=
  C5_ShardsByKeys_grouping parseAny openAny 500 exampleConfig exampleCluster (by rfl)
    [1024, 2048, 1025, 4096, 1024]

/-- The result of `ShardsByKeys` on the example cluster, computed. -/
theorem example_ShardsByKeys :
    exampleCluster.ShardsByKeys [1024, 2048, 1025, 4096, 1024] =
      [({ id := 1, writable := true, conn := { pool := 1 } }, [1024, 1025, 1024]),
       ({ id := 2, writable := false, conn := { pool := 2 } }, [2048])] := by
  decide

/-- CLAIM C6. Routing completeness of `ShardsByKeys` on a cluster built by
`newCluster`: in whatever order the groups of the result are taken, their
concatenation is a permutation of the keys that resolve to a shard; when the
shard id of every key is configured, it is a permutation of the whole input;
and the number of keys in the groups is the length of the input minus the
number of keys whose shard id is not configured. -/
theorem C6_ShardsByKeys_complete (urlParse : String → error)
    (pgxpoolNew : String → Except GoError Nat) (alloc : Nat) (cfg : ClusterConfig)
    (c : cluster)
    (h : newCluster urlParse pgxpoolNew alloc cfg = .ok c) (ks : List Nat) :
    (∀ l : List (shard × List Nat), l.Perm (c.ShardsByKeys ks) →
        (l.map Prod.snd).flatten.Perm
          (ks.filter (fun k => ∃ sc ∈ cfg.Shards, sc.ShardID = extractShardID k))) ∧
      ((∀ k ∈ ks, ∃ sc ∈ cfg.Shards, sc.ShardID = extractShardID k) →
        ∀ l : List (shard × List Nat), l.Perm (c.ShardsByKeys ks) →
          (l.map Prod.snd).flatten.Perm ks ∧ (l.map Prod.snd).flatten.length = ks.length) ∧
      ((c.ShardsByKeys ks).map (fun p => p.2.length)).sum =
        ks.length -
          (ks.filter (fun k => ∀ sc ∈ cfg.Shards, sc.ShardID ≠ extractShardID k)).length := by
  have hres : ∀ k, (c.ShardByKey k).isSome = true ↔
      ∃ sc ∈ cfg.Shards, sc.ShardID = extractShardID k := by
    intro k
    rw [Option.isSome_iff_exists]
    exact ShardByKey_exists_iff urlParse pgxpoolNew alloc cfg c h k
  have hfl : ((c.ShardsByKeys ks).map Prod.snd).flatten.Perm
      (ks.filter (fun k => ∃ sc ∈ cfg.Shards, sc.ShardID = extractShardID k)) := by
    have := ShardsByKeys_loop_flatten c ks []
    simp only [List.map_nil, List.flatten_nil, List.nil_append] at this
    have e : ks.filter (fun k => (c.ShardByKey k).isSome) =
        ks.filter (fun k => ∃ sc ∈ cfg.Shards, sc.ShardID = extractShardID k) := by
      apply List.filter_congr
      intro k _
      rw [Bool.eq_iff_iff]
      simp only [decide_eq_true_eq]
      exact hres k
    rw [e] at this
    exact this
  have hany : ∀ l : List (shard × List Nat), l.Perm (c.ShardsByKeys ks) →
      (l.map Prod.snd).flatten.Perm
        (ks.filter (fun k => ∃ sc ∈ cfg.Shards, sc.ShardID = extractShardID k)) :=
    fun l hl => ((hl.map Prod.snd).flatten).trans hfl
  refine ⟨hany, ?_, ?_⟩
  · intro hall l hl
    have e : ks.filter (fun k => ∃ sc ∈ cfg.Shards, sc.ShardID = extractShardID k) = ks := by
      rw [List.filter_eq_self]
      intro k hk
      simpa using hall k hk
    have hp := hany l hl
    rw [e] at hp
    exact ⟨hp, hp.length_eq⟩
  · have hlen := hfl.length_eq
    rw [List.length_flatten, List.map_map] at hlen
    have hsplit := List.length_eq_length_filter_add (l := ks)
      (fun k => decide (∃ sc ∈ cfg.Shards, sc.ShardID = extractShardID k))
    have e : ks.filter (fun k => ∀ sc ∈ cfg.Shards, sc.ShardID ≠ extractShardID k) =
        ks.filter (fun k => !decide (∃ sc ∈ cfg.Shards, sc.ShardID = extractShardID k)) := by
      apply List.filter_congr
      intro k _
      rw [Bool.eq_iff_iff]
      simp
    rw [e]
    have : (List.map (fun p => p.2.length) (c.ShardsByKeys ks)).sum =
        (List.map (List.length ∘ Prod.snd) (c.ShardsByKeys ks)).sum := rfl
    rw [this, hlen]
    omega

/-- Witness of C6 on the example cluster, with one key of an unconfigured shard. -/
theorem C6_ShardsByKeys_complete_witness :
    (∀ l : List (shard × List Nat),
        l.Perm (exampleCluster.ShardsByKeys [1024, 2048, 1025, 4096, 1024]) →
        (l.map Prod.snd).flatten.Perm
          ([1024, 2048, 1025, 4096, 1024].filter
            (fun k => ∃ sc ∈ exampleConfig.Shards, sc.ShardID = extractShardID k))) ∧
      ((∀ k ∈ [1024, 2048, 1025, 4096, 1024],
          ∃ sc ∈ exampleConfig.Shards, sc.ShardID = extractShardID k) →
        ∀ l : List (shard × List Nat),
          l.Perm (exampleCluster.ShardsByKeys [1024, 2048, 1025, 4096, 1024]) →
          (l.map Prod.snd).flatten.Perm [1024, 2048, 1025, 4096, 1024] ∧
            (l.map Prod.snd).flatten.length = [1024, 2048, 1025, 4096, 1024].length) ∧
      ((exampleCluster.ShardsByKeys [1024, 2048, 1025, 4096, 1024]).map
          (fun p => p.2.length)).sum =
        [1024, 2048, 1025, 4096, 1024].length -
          ([1024, 2048, 1025, 4096, 1024].filter
            (fun k => ∀ sc ∈ exampleConfig.Shards, sc.ShardID ≠ extractShardID k)).length :=
  C6_ShardsByKeys_complete parseAny openAny 500 exampleConfig exampleCluster (by rfl)
    [1024, 2048, 1025, 4096, 1024]

/-- The count of C6 on the example cluster, computed: five keys, one dropped,
four routed. -/
theorem example_ShardsByKeys_count :
    ((exampleCluster.ShardsByKeys [1024, 2048, 1025, 4096, 1024]).map
        (fun p => p.2.length)).sum = 4 ∧
      ([1024, 2048, 1025, 4096, 1024].filter
        (fun k => ∀ sc ∈ exampleConfig.Shards, sc.ShardID ≠ extractShardID k)) = [4096] := by
  refine ⟨by decide, by decide⟩

/-- Witness of C10 on the example cluster with a callback that fails on shard 2. -/
theorem C10_EveryShard_fail_fast_witness :
    (exampleCluster.EveryShard failOnTwo).1 =
        exampleCluster.AllShards.take (exampleCluster.EveryShard failOnTwo).1.length ∧
      (∀ pre s post, exampleCluster.AllShards = pre ++ s :: post →
        (∀ t ∈ pre, failOnTwo t = none) → failOnTwo s ≠ none →
        (exampleCluster.EveryShard failOnTwo).2 = failOnTwo s ∧
          (exampleCluster.EveryShard failOnTwo).1 = pre ++ [s]) ∧
      ((exampleCluster.EveryShard failOnTwo).2 = none ↔
        ∀ s ∈ exampleCluster.AllShards, failOnTwo s = none) ∧
      ((exampleCluster.EveryShard failOnTwo).2 = none →
        (exampleCluster.EveryShard failOnTwo).1 = exampleCluster.AllShards) ∧
      (∀ urlParse pgxpoolNew alloc cfg,
        newCluster urlParse pgxpoolNew alloc cfg = .ok exampleCluster →
        exampleCluster.AllShards.map (fun s => (s.ID, s.Writable)) =
          cfg.Shards.map (fun sc => (sc.ShardID, sc.Writable))) :=
  C10_EveryShard_fail_fast exampleCluster failOnTwo

/-- Witness of C8 on the example configuration, which is accepted. -/
theorem C8_validate_error_iff_witness :
    (exampleConfig.validate parseAny 500 ≠ none ↔
      exampleConfig.ClusterName = "" ∨ exampleConfig.Shards = [] ∨ exampleConfig.Tables = [] ∨
      (∃ s ∈ exampleConfig.Shards, s.ShardID = 0) ∨
      (∃ s ∈ exampleConfig.Shards, parseAny s.DSN ≠ none) ∨
      (∃ i j : Nat, i < j ∧ j < exampleConfig.Shards.length ∧
        (exampleConfig.Shards.map ShardConfig.ShardID)[i]? =
          (exampleConfig.Shards.map ShardConfig.ShardID)[j]?) ∨
      (∀ s ∈ exampleConfig.Shards, s.Writable = false)) ∧
    ((∃ i j : Nat, i < j ∧ j < exampleConfig.Shards.length ∧
        (exampleConfig.Shards.map ShardConfig.ShardID)[i]? = some 5 ∧
        (exampleConfig.Shards.map ShardConfig.ShardID)[j]? = some 5) →
      exampleConfig.validate parseAny 500 ≠ none) ∧
    ((∀ s ∈ exampleConfig.Shards, s.Writable = false) →
      exampleConfig.validate parseAny 500 ≠ none) ∧
    ((∃ s ∈ exampleConfig.Shards, s.ShardID = 0) →
      exampleConfig.validate parseAny 500 ≠ none) :=
  C8_validate_error_iff parseAny 500 exampleConfig

end Database
